import Mathlib

/-!
Verification of the snake-game state-update logic from `src/main.rs`.

The Rust code is shallowly embedded: the grid is a `List (List Nat)` (the
source's `Vec<Vec<u8>>`), the `VecDeque<SnakeDirection>` becomes a `List`
whose head is the deque's front (`push_front` is `cons`, `pop_back` takes
the last element), and the machine-integer casts `usize as i16` and
`i16 as usize` are modelled explicitly by `wrap16` and `usizeOfI16`.
Randomness in `add_food` is modelled by passing the sequence of drawn
positions explicitly.  The partial operations of the source (vector
indexing, `Option::unwrap`) are totalised with default values; the safety
claims prove that on well-formed states the defaults are never consulted.
-/

namespace SnakeGame

/-- `type Cell = u8;` — cells are small integers. -/
abbrev Cell := Nat

/-- `type CellPos = (usize, usize);` — a (row, column) pair. -/
abbrev CellPos := Nat × Nat

/-- `type Grid = Vec<Vec<Cell>>;` -/
abbrev Grid := List (List Cell)

def EMPTY : Cell := 0

def SNAKE : Cell := 1

def FOOD : Cell := 2

/-- The four movement directions of the source's `enum SnakeDirection`. -/
inductive SnakeDirection where
  | Up
  | Right
  | Down
  | Left
deriving DecidableEq, Repr

/-- The source's `struct GameState`.  `timing: Duration` is modelled as a
number of seconds; it plays no role in the update logic. -/
structure GameState where
  grid : Grid
  timing : Nat
  last_direction : SnakeDirection
  head : CellPos
  tail : CellPos
  head_directions : List SnakeDirection
deriving DecidableEq, Repr

/-- Semantics of the cast `usize as i16` and of wrapping 16-bit signed
arithmetic: truncate to 16 bits and reinterpret in two's complement. -/
def wrap16 (z : Int) : Int := (z + 32768) % 65536 - 32768

/-- Semantics of the cast `i16 as usize`: sign-extend and reinterpret as an
unsigned 64-bit integer. -/
def usizeOfI16 (z : Int) : Nat := (z % 18446744073709551616).toNat

/-- `fn grid_size(grid: &Grid) -> (usize, usize)`.  The source indexes
`grid[0]`, which panics on an empty grid; here the empty grid yields 0
columns, and well-formedness demands a non-empty grid. -/
def grid_size (g : Grid) : Nat × Nat := (g.length, (g.headD []).length)

/-- Reading `grid[x][y]`; out-of-range reads (a panic in the source) return
`EMPTY` here, and the safety claim shows every read is in range. -/
def getCell (g : Grid) (p : CellPos) : Cell := (g.getD p.1 []).getD p.2 EMPTY

/-- Writing `grid[x][y] = c`; out-of-range writes are dropped. -/
def setCell (g : Grid) (p : CellPos) (c : Cell) : Grid :=
  g.set p.1 ((g.getD p.1 []).set p.2 c)

/-- `fn _calc_position(pos: CellPos, direction: SnakeDirection) -> (i16, i16)`.
Both coordinates are cast `usize as i16` and the unit offset is applied in
16-bit arithmetic. -/
def _calc_position (pos : CellPos) (direction : SnakeDirection) : Int × Int :=
  let x := wrap16 (pos.1 : Int)
  let y := wrap16 (pos.2 : Int)
  match direction with
  | SnakeDirection.Right => (x, wrap16 (y + 1))
  | SnakeDirection.Down => (wrap16 (x + 1), y)
  | SnakeDirection.Left => (x, wrap16 (y - 1))
  | SnakeDirection.Up => (wrap16 (x - 1), y)

/-- `fn _update_snake_tail(state: &mut GameState)`: clear the tail cell, pop
the oldest direction from the back of `head_directions` and move the tail one
step in that direction.  The source's `pop_back().unwrap()` is totalised with
the default `Right`; the safety claim shows the queue is never empty there. -/
def _update_snake_tail (state : GameState) : GameState :=
  let grid1 := setCell state.grid state.tail EMPTY
  let popped := state.head_directions.getLastD SnakeDirection.Right
  let rest := state.head_directions.dropLast
  let tpos := _calc_position state.tail popped
  { state with
      grid := grid1
      tail := (usizeOfI16 tpos.1, usizeOfI16 tpos.2)
      head_directions := rest }

/-- `fn _update_snake_head`: move the head, mark its cell as `SNAKE` and push
the new direction onto the front of `head_directions`. -/
def _update_snake_head (state : GameState) (new_head_x new_head_y : Nat)
    (new_direction : SnakeDirection) : GameState :=
  let state1 := { state with head := (new_head_x, new_head_y) }
  let state2 := { state1 with grid := setCell state1.grid state1.head SNAKE }
  { state2 with head_directions := new_direction :: state2.head_directions }

/-- `fn update_snake(state: &mut GameState, new_direction) -> IsGameValid`.
The boundary comparison is against `nrows as i16` / `ncols as i16` exactly as
in the source. -/
def update_snake (state : GameState) (new_direction : SnakeDirection) :
    GameState × Bool :=
  let nrows := (grid_size state.grid).1
  let ncols := (grid_size state.grid).2
  let new_head := _calc_position state.head new_direction
  if new_head.1 < 0 ∨ new_head.2 < 0 ∨
      new_head.1 ≥ wrap16 (nrows : Int) ∨ new_head.2 ≥ wrap16 (ncols : Int) then
    (state, false)
  else
    let new_head_x := usizeOfI16 new_head.1
    let new_head_y := usizeOfI16 new_head.2
    let state1 := _update_snake_head state new_head_x new_head_y new_direction
    let state2 :=
      if getCell state.grid (new_head_x, new_head_y) = FOOD then state1
      else _update_snake_tail state1
    ({ state2 with last_direction := new_direction }, true)

/-- `fn init_game_state(nrows, ncols) -> GameState`: an all-empty grid with a
two-cell snake, head at (0,1) and tail at (0,0), facing `Right`. -/
def init_game_state (nrows ncols : Nat) : GameState :=
  let state0 : GameState :=
    { grid := List.replicate nrows (List.replicate ncols EMPTY)
      timing := 1
      last_direction := SnakeDirection.Right
      head := (0, 1)
      tail := (0, 0)
      head_directions := [SnakeDirection.Right] }
  let grid1 := setCell state0.grid state0.head SNAKE
  let grid2 := setCell grid1 state0.tail SNAKE
  { state0 with grid := grid2 }

/-- `fn add_food(grid: &mut Grid, max_amount: usize)`: the random generator is
modelled by the explicit list `draws` of drawn positions (one per draw, each
uniform in the grid's ranges in the source).  A drawn cell becomes `FOOD` only
if it currently holds `EMPTY`; otherwise the draw is skipped with no retry. -/
def add_food (grid : Grid) (draws : List CellPos) : Grid :=
  draws.foldl
    (fun g p => if getCell g p = EMPTY then setCell g p FOOD else g) grid

/-- Number of cells of the grid holding the value `a`. -/
def countCells (g : Grid) (a : Cell) : Nat := (g.map (fun row => row.count a)).sum

/-- Number of `SNAKE` cells of the grid. -/
def countSnake (g : Grid) : Nat := countCells g SNAKE

/-- The grid is rectangular: every row has the length of row 0. -/
def Rect (g : Grid) : Prop := ∀ row ∈ g, row.length = (g.headD []).length

/-- A position within the grid's extents. -/
def InBounds (g : Grid) (p : CellPos) : Prop :=
  p.1 < g.length ∧ p.2 < (g.headD []).length

/-- Well-formed game states: a non-empty rectangular grid whose extents fit
in an `i16` (so the source's casts are value-preserving), head and tail in
bounds, and a non-empty direction queue. -/
def WellFormed (s : GameState) : Prop :=
  s.grid ≠ [] ∧ Rect s.grid ∧
  s.grid.length ≤ 32767 ∧ (s.grid.headD []).length ≤ 32767 ∧
  InBounds s.grid s.head ∧ InBounds s.grid s.tail ∧
  s.head_directions ≠ []

instance decidableRect (g : Grid) : Decidable (Rect g) := by
  unfold Rect
  exact inferInstance

instance decidableInBounds (g : Grid) (p : CellPos) : Decidable (InBounds g p) := by
  unfold InBounds
  exact inferInstance

instance decidableWellFormed (s : GameState) : Decidable (WellFormed s) := by
  unfold WellFormed
  exact inferInstance

/-- Modelled from the spec, §4.1: `nextPosition(pos, direction)` is the exact
(unbounded) signed pair `pos + unit_offset(direction)`, with Right=(0,+1),
Down=(+1,0), Left=(0,-1), Up=(-1,0). -/
def nextPositionSpec (pos : CellPos) (direction : SnakeDirection) : Int × Int :=
  match direction with
  | SnakeDirection.Right => ((pos.1 : Int), (pos.2 : Int) + 1)
  | SnakeDirection.Down => ((pos.1 : Int) + 1, (pos.2 : Int))
  | SnakeDirection.Left => ((pos.1 : Int), (pos.2 : Int) - 1)
  | SnakeDirection.Up => ((pos.1 : Int) - 1, (pos.2 : Int))

/-- The panic-freedom side conditions of one `update_snake` call: the grid is
non-empty (`grid_size` reads `grid[0]`), and when the boundary check passes,
the new head index and the tail index are in bounds (all `grid[x][y]` reads
and writes) and the queue handed to `pop_back().unwrap()` — which pops after
`push_front` — is non-empty.  `setCell` preserves both extents
(`length_setCell`, `ncols_setCell`), so bounds w.r.t. the initial grid cover
the tail write performed on the updated grid. -/
def update_snake_no_panic (s : GameState) (d : SnakeDirection) : Prop :=
  s.grid ≠ [] ∧
  (¬((_calc_position s.head d).1 < 0 ∨ (_calc_position s.head d).2 < 0 ∨
      (_calc_position s.head d).1 ≥ wrap16 (s.grid.length : Int) ∨
      (_calc_position s.head d).2 ≥ wrap16 ((s.grid.headD []).length : Int)) →
    InBounds s.grid (usizeOfI16 (_calc_position s.head d).1,
      usizeOfI16 (_calc_position s.head d).2) ∧
    InBounds s.grid s.tail ∧
    d :: s.head_directions ≠ [])

/-- A 1×2 grid filled by the snake, head at the right edge. -/
def wEdge : GameState :=
  { grid := [[SNAKE, SNAKE]]
    timing := 1
    last_direction := SnakeDirection.Right
    head := (0, 1)
    tail := (0, 0)
    head_directions := [SnakeDirection.Right] }

/-- A 1×3 grid: two snake cells and food ahead of the head. -/
def wFood : GameState :=
  { grid := [[SNAKE, SNAKE, FOOD]]
    timing := 1
    last_direction := SnakeDirection.Right
    head := (0, 1)
    tail := (0, 0)
    head_directions := [SnakeDirection.Right] }

/-- A 1×3 grid: two snake cells and an empty cell ahead of the head. -/
def wOpen : GameState :=
  { grid := [[SNAKE, SNAKE, EMPTY]]
    timing := 1
    last_direction := SnakeDirection.Right
    head := (0, 1)
    tail := (0, 0)
    head_directions := [SnakeDirection.Right] }

/-- A 1×3 grid entirely covered by snake cells. -/
def wBody : GameState :=
  { grid := [[SNAKE, SNAKE, SNAKE]]
    timing := 1
    last_direction := SnakeDirection.Right
    head := (0, 1)
    tail := (0, 0)
    head_directions := [SnakeDirection.Right] }

/-- A 2×2 all-empty grid, used to instantiate the food-placement claim. -/
def wGrid : Grid := [[EMPTY, EMPTY], [EMPTY, EMPTY]]

/-- A single draw at (0,0), used to instantiate the food-placement claim. -/
def wDraws : List CellPos := [(0, 0)]

lemma wrap16_eq_of_bounds (z : Int) (h1 : -32768 ≤ z) (h2 : z ≤ 32767) :
    wrap16 z = z := by
  unfold wrap16; omega

lemma wrap16_range (z : Int) : -32768 ≤ wrap16 z ∧ wrap16 z ≤ 32767 := by
  unfold wrap16; omega

lemma _calc_position_range (p : CellPos) (d : SnakeDirection) :
    -32768 ≤ (_calc_position p d).1 ∧ (_calc_position p d).1 ≤ 32767 ∧
    -32768 ≤ (_calc_position p d).2 ∧ (_calc_position p d).2 ≤ 32767 := by
  cases d <;> simp only [_calc_position, wrap16] <;> omega

lemma ne_components {p q : CellPos} (h : p ≠ q) : p.1 ≠ q.1 ∨ p.2 ≠ q.2 := by
  by_contra hcon
  push_neg at hcon
  exact h (Prod.ext hcon.1 hcon.2)

lemma usizeOfI16_coe (n : Nat) (h : n < 18446744073709551616) :
    usizeOfI16 (n : Int) = n := by
  unfold usizeOfI16; omega

lemma _calc_position_eq_spec (pos : CellPos) (direction : SnakeDirection)
    (h1 : pos.1 ≤ 32766) (h2 : pos.2 ≤ 32766) :
    _calc_position pos direction = nextPositionSpec pos direction := by
  cases direction <;>
    simp only [_calc_position, nextPositionSpec, wrap16, Prod.mk.injEq] <;>
    omega

lemma getD_set_self {α : Type} (l : List α) (i : Nat) (a d : α)
    (h : i < l.length) : (l.set i a).getD i d = a := by
  induction l generalizing i with
  | nil => simp at h
  | cons x xs ih =>
    cases i with
    | zero => rfl
    | succ n =>
      simp only [List.set_cons_succ, List.getD_cons_succ]
      exact ih n (by simpa using h)

lemma getD_set_ne {α : Type} (l : List α) (i j : Nat) (a d : α)
    (h : i ≠ j) : (l.set i a).getD j d = l.getD j d := by
  induction l generalizing i j with
  | nil => rfl
  | cons x xs ih =>
    cases i with
    | zero =>
      cases j with
      | zero => exact absurd rfl h
      | succ m => rfl
    | succ n =>
      cases j with
      | zero => rfl
      | succ m =>
        simp only [List.set_cons_succ, List.getD_cons_succ]
        exact ih n m (fun he => h (by rw [he]))

lemma headD_eq_getD {α : Type} (l : List α) (d : α) : l.headD d = l.getD 0 d := by
  cases l <;> rfl

lemma getLastD_eq_getLast {α : Type} (l : List α) (h : l ≠ []) (d : α) :
    l.getLastD d = l.getLast h := by
  induction l generalizing d with
  | nil => exact absurd rfl h
  | cons x xs ih =>
    cases xs with
    | nil => rfl
    | cons y ys =>
      rw [List.getLastD_cons, List.getLast_cons (by simp)]
      exact ih (by simp) x

lemma count_set_aux (l : List Cell) : ∀ (j : Nat) (c a : Cell),
    j < l.length →
    (l.set j c).count a + (if l.getD j EMPTY = a then 1 else 0)
      = l.count a + (if c = a then 1 else 0) := by
  induction l with
  | nil => intro j c a h; simp at h
  | cons x xs ih =>
    intro j c a h
    cases j with
    | zero =>
      simp only [List.set_cons_zero, List.count_cons, List.getD_cons_zero,
        beq_iff_eq]
      omega
    | succ n =>
      have hn : n < xs.length := by simpa using h
      have hrec := ih n c a hn
      simp only [List.set_cons_succ, List.count_cons, List.getD_cons_succ,
        beq_iff_eq]
      omega

lemma length_setCell (g : Grid) (p : CellPos) (c : Cell) :
    (setCell g p c).length = g.length := by
  simp [setCell]

lemma row_length_setCell (g : Grid) (p : CellPos) (c : Cell) (i : Nat) :
    ((setCell g p c).getD i []).length = (g.getD i []).length := by
  unfold setCell
  rcases Nat.lt_or_ge p.1 g.length with hlt | hge
  · by_cases hip : i = p.1
    · subst hip
      rw [getD_set_self _ _ _ _ hlt, List.length_set]
    · rw [getD_set_ne _ _ _ _ _ (fun he => hip he.symm)]
  · rw [List.set_eq_of_length_le hge]

lemma ncols_setCell (g : Grid) (p : CellPos) (c : Cell) :
    ((setCell g p c).headD []).length = (g.headD []).length := by
  rw [headD_eq_getD, headD_eq_getD]
  exact row_length_setCell g p c 0

lemma rect_row_len (g : Grid) (hr : Rect g) (i : Nat) (hi : i < g.length) :
    (g.getD i []).length = (g.headD []).length := by
  have hmem : g.getD i [] ∈ g := by
    rw [List.getD_eq_getElem?_getD, List.getElem?_eq_getElem hi]
    simp
  exact hr _ hmem

lemma getCell_setCell_self (g : Grid) (p : CellPos) (c : Cell)
    (h1 : p.1 < g.length) (h2 : p.2 < (g.getD p.1 []).length) :
    getCell (setCell g p c) p = c := by
  unfold getCell setCell
  rw [getD_set_self _ _ _ _ h1, getD_set_self _ _ _ _ h2]

lemma getCell_setCell_ne (g : Grid) (p q : CellPos) (c : Cell)
    (h : q.1 ≠ p.1 ∨ q.2 ≠ p.2) : getCell (setCell g p c) q = getCell g q := by
  unfold getCell setCell
  rcases h with h | h
  · rw [getD_set_ne _ _ _ _ _ (fun he => h he.symm)]
  · by_cases hq : q.1 = p.1
    · rw [hq]
      rcases Nat.lt_or_ge p.1 g.length with hlt | hge
      · rw [getD_set_self _ _ _ _ hlt,
          getD_set_ne _ _ _ _ _ (fun he => h he.symm)]
      · rw [List.set_eq_of_length_le hge]
    · rw [getD_set_ne _ _ _ _ _ (fun he => hq he.symm)]

lemma countCells_set_aux (g : Grid) : ∀ (i j : Nat) (c a : Cell),
    i < g.length → j < (g.getD i []).length →
    countCells (setCell g (i, j) c) a + (if getCell g (i, j) = a then 1 else 0)
      = countCells g a + (if c = a then 1 else 0) := by
  induction g with
  | nil => intro i j c a hi _; simp at hi
  | cons r rs ih =>
    intro i j c a hi hj
    cases i with
    | zero =>
      have hj0 : j < r.length := by simpa using hj
      have hbase := count_set_aux r j c a hj0
      simp only [setCell, getCell, countCells, List.getD_cons_zero,
        List.set_cons_zero, List.map_cons, List.sum_cons]
      omega
    | succ n =>
      have hn : n < rs.length := by simpa using hi
      have hj' : j < (rs.getD n []).length := by simpa using hj
      have hrec := ih n j c a hn hj'
      simp only [setCell, getCell, countCells, List.getD_cons_succ,
        List.set_cons_succ, List.map_cons, List.sum_cons] at hrec ⊢
      omega

lemma countCells_setCell (g : Grid) (p : CellPos) (c a : Cell)
    (h1 : p.1 < g.length) (h2 : p.2 < (g.getD p.1 []).length) :
    countCells (setCell g p c) a + (if getCell g p = a then 1 else 0)
      = countCells g a + (if c = a then 1 else 0) := by
  obtain ⟨i, j⟩ := p
  exact countCells_set_aux g i j c a h1 h2

lemma update_snake_out_eq (s : GameState) (d : SnakeDirection)
    (h : (_calc_position s.head d).1 < 0 ∨ (_calc_position s.head d).2 < 0 ∨
      (_calc_position s.head d).1 ≥ wrap16 (s.grid.length : Int) ∨
      (_calc_position s.head d).2 ≥ wrap16 ((s.grid.headD []).length : Int)) :
    update_snake s d = (s, false) := by
  simp only [update_snake, grid_size]
  rw [if_pos h]

lemma update_snake_in_food_eq (s : GameState) (d : SnakeDirection)
    (hx hy : Nat)
    (hpos : _calc_position s.head d = ((hx : Int), (hy : Int)))
    (hxr : hx < s.grid.length) (hyr : hy < (s.grid.headD []).length)
    (hrow : s.grid.length ≤ 32767) (hcol : (s.grid.headD []).length ≤ 32767)
    (hfood : getCell s.grid (hx, hy) = FOOD) :
    update_snake s d =
      ({ grid := setCell s.grid (hx, hy) SNAKE
         timing := s.timing
         last_direction := d
         head := (hx, hy)
         tail := s.tail
         head_directions := d :: s.head_directions }, true) := by
  have hwr : wrap16 (s.grid.length : Int) = (s.grid.length : Int) :=
    wrap16_eq_of_bounds _ (by omega) (by exact_mod_cast hrow)
  have hwc : wrap16 ((s.grid.headD []).length : Int)
      = ((s.grid.headD []).length : Int) :=
    wrap16_eq_of_bounds _ (by omega) (by exact_mod_cast hcol)
  have hux : usizeOfI16 ((hx : Nat) : Int) = hx := usizeOfI16_coe hx (by omega)
  have huy : usizeOfI16 ((hy : Nat) : Int) = hy := usizeOfI16_coe hy (by omega)
  simp only [update_snake, grid_size, hpos, hwr, hwc]
  rw [if_neg (by omega)]
  simp only [hux, huy, hfood, if_pos]
  simp [_update_snake_head]

lemma update_snake_in_nofood_eq (s : GameState) (d : SnakeDirection)
    (hx hy : Nat)
    (hpos : _calc_position s.head d = ((hx : Int), (hy : Int)))
    (hxr : hx < s.grid.length) (hyr : hy < (s.grid.headD []).length)
    (hrow : s.grid.length ≤ 32767) (hcol : (s.grid.headD []).length ≤ 32767)
    (hnf : getCell s.grid (hx, hy) ≠ FOOD) :
    update_snake s d =
      ({ grid := setCell (setCell s.grid (hx, hy) SNAKE) s.tail EMPTY
         timing := s.timing
         last_direction := d
         head := (hx, hy)
         tail :=
           (usizeOfI16 (_calc_position s.tail
              ((d :: s.head_directions).getLastD SnakeDirection.Right)).1,
            usizeOfI16 (_calc_position s.tail
              ((d :: s.head_directions).getLastD SnakeDirection.Right)).2)
         head_directions := (d :: s.head_directions).dropLast }, true) := by
  have hwr : wrap16 (s.grid.length : Int) = (s.grid.length : Int) :=
    wrap16_eq_of_bounds _ (by omega) (by exact_mod_cast hrow)
  have hwc : wrap16 ((s.grid.headD []).length : Int)
      = ((s.grid.headD []).length : Int) :=
    wrap16_eq_of_bounds _ (by omega) (by exact_mod_cast hcol)
  have hux : usizeOfI16 ((hx : Nat) : Int) = hx := usizeOfI16_coe hx (by omega)
  have huy : usizeOfI16 ((hy : Nat) : Int) = hy := usizeOfI16_coe hy (by omega)
  simp only [update_snake, grid_size, hpos, hwr, hwc]
  rw [if_neg (by omega)]
  simp only [hux, huy]
  rw [if_neg hnf]
  simp [_update_snake_head, _update_snake_tail]

/-- C1: for every well-formed `GameState` and every direction whose computed
next head position is out of the grid bounds (a coordinate negative or at
least the corresponding extent), `update_snake` returns `false` and the whole
`GameState` — grid, head, tail, `head_directions` and `last_direction` — is
unchanged. -/
theorem claim_C1_boundary_no_mutation (s : GameState) (d : SnakeDirection)
    (hwf : WellFormed s)
    (hout : (_calc_position s.head d).1 < 0 ∨ (_calc_position s.head d).2 < 0 ∨
      (_calc_position s.head d).1 ≥ (s.grid.length : Int) ∨
      (_calc_position s.head d).2 ≥ ((s.grid.headD []).length : Int)) :
    update_snake s d = (s, false) := by
  obtain ⟨hne, hrect, hrow, hcol, hh, ht, hq⟩ := hwf
  apply update_snake_out_eq
  rw [wrap16_eq_of_bounds _ (by omega) (by exact_mod_cast hrow),
    wrap16_eq_of_bounds _ (by omega) (by exact_mod_cast hcol)]
  exact hout

/-- Witness for C1: on a full 1×2 grid with the head at the right edge,
moving `Right` returns `false` and changes nothing. -/
theorem claim_C1_witness :
    WellFormed wEdge ∧ update_snake wEdge SnakeDirection.Right = (wEdge, false) :=
  ⟨by decide,
    claim_C1_boundary_no_mutation wEdge SnakeDirection.Right (by decide) (by decide)⟩

/-- C4: on a 10×10 grid from `init_game_state` (head (0,1), tail (0,0),
facing Right, queue `[Right]`, no food anywhere), three `Right` ticks all
return `true`, the head visits (0,2), (0,3), (0,4), the tail visits (0,1),
(0,2), (0,3), and the final grid holds exactly 2 snake cells. -/
theorem claim_C4_concrete_scenario :
    countCells (init_game_state 10 10).grid FOOD = 0 ∧
    (update_snake (init_game_state 10 10) SnakeDirection.Right).2 = true ∧
    (update_snake (update_snake (init_game_state 10 10)
      SnakeDirection.Right).1 SnakeDirection.Right).2 = true ∧
    (update_snake (update_snake (update_snake (init_game_state 10 10)
      SnakeDirection.Right).1 SnakeDirection.Right).1
      SnakeDirection.Right).2 = true ∧
    (update_snake (init_game_state 10 10) SnakeDirection.Right).1.head
      = (0, 2) ∧
    (update_snake (update_snake (init_game_state 10 10)
      SnakeDirection.Right).1 SnakeDirection.Right).1.head = (0, 3) ∧
    (update_snake (update_snake (update_snake (init_game_state 10 10)
      SnakeDirection.Right).1 SnakeDirection.Right).1
      SnakeDirection.Right).1.head = (0, 4) ∧
    (update_snake (init_game_state 10 10) SnakeDirection.Right).1.tail
      = (0, 1) ∧
    (update_snake (update_snake (init_game_state 10 10)
      SnakeDirection.Right).1 SnakeDirection.Right).1.tail = (0, 2) ∧
    (update_snake (update_snake (update_snake (init_game_state 10 10)
      SnakeDirection.Right).1 SnakeDirection.Right).1
      SnakeDirection.Right).1.tail = (0, 3) ∧
    countSnake (update_snake (update_snake (update_snake
      (init_game_state 10 10) SnakeDirection.Right).1 SnakeDirection.Right).1
      SnakeDirection.Right).1.grid = 2 := by
  decide

/-- Counterexample to C7 as stated: position (32768, 0) is valid on a grid
with 32769 rows and 1 column, yet `_calc_position` does not return
`pos + unit_offset(direction)` for `Right`, because the source casts the
coordinates `usize as i16`, truncating 32768 to -32768. -/
theorem claim_C7_counterexample :
    (32768 : Nat) < 32769 ∧ (0 : Nat) < 1 ∧
    _calc_position (32768, 0) SnakeDirection.Right
      ≠ nextPositionSpec (32768, 0) SnakeDirection.Right := by
  decide

/-- C7 (amended): for every position both of whose coordinates are at most
32766 — so the `usize as i16` casts and the 16-bit increment are
value-preserving — and every direction, `_calc_position` returns exactly the
signed pair `pos + unit_offset(direction)` with Right=(0,+1), Down=(+1,0),
Left=(0,-1), Up=(-1,0). -/
theorem claim_C7_geometry_amended (pos : CellPos) (direction : SnakeDirection)
    (h1 : pos.1 ≤ 32766) (h2 : pos.2 ≤ 32766) :
    _calc_position pos direction = nextPositionSpec pos direction :=
  _calc_position_eq_spec pos direction h1 h2

/-- Witness for the amended C7 at position (0, 1), direction `Right`. -/
theorem claim_C7_witness :
    (0 : Nat) ≤ 32766 ∧ (1 : Nat) ≤ 32766 ∧
    _calc_position (0, 1) SnakeDirection.Right
      = nextPositionSpec (0, 1) SnakeDirection.Right :=
  ⟨by decide, by decide,
    claim_C7_geometry_amended (0, 1) SnakeDirection.Right (by decide) (by decide)⟩

/-- C2: for every well-formed state and direction whose next head position is
in bounds and holds `FOOD`, `update_snake` returns `true`, the snake-cell
count grows by one, the pre-call tail cell still holds `SNAKE`, the tail is
unchanged, and `head_directions` gains one entry. -/
theorem claim_C2_growth (s : GameState) (d : SnakeDirection) (hx hy : Nat)
    (hwf : WellFormed s)
    (hpos : _calc_position s.head d = ((hx : Int), (hy : Int)))
    (hxr : hx < s.grid.length) (hyr : hy < (s.grid.headD []).length)
    (hfood : getCell s.grid (hx, hy) = FOOD)
    (htail : getCell s.grid s.tail = SNAKE) :
    (update_snake s d).2 = true ∧
    countSnake (update_snake s d).1.grid = countSnake s.grid + 1 ∧
    getCell (update_snake s d).1.grid s.tail = SNAKE ∧
    (update_snake s d).1.tail = s.tail ∧
    (update_snake s d).1.head_directions.length
      = s.head_directions.length + 1 := by
  obtain ⟨hne, hrect, hrow, hcol, hh, ht, hq⟩ := hwf
  rw [update_snake_in_food_eq s d hx hy hpos hxr hyr hrow hcol hfood]
  dsimp only
  have hrl : (s.grid.getD hx []).length = (s.grid.headD []).length :=
    rect_row_len s.grid hrect hx hxr
  have hneq : s.tail.1 ≠ hx ∨ s.tail.2 ≠ hy := by
    rcases eq_or_ne s.tail (hx, hy) with he | hne2
    · exfalso
      rw [he] at htail
      rw [htail] at hfood
      exact absurd hfood (by decide)
    · exact ne_components hne2
  refine ⟨rfl, ?_, ?_, rfl, by simp⟩
  · have hcc := countCells_setCell s.grid (hx, hy) SNAKE SNAKE hxr
      (by show hy < (s.grid.getD hx []).length; omega)
    rw [hfood] at hcc
    have e1 : (if FOOD = SNAKE then 1 else 0) = 0 := by decide
    have e2 : (if SNAKE = SNAKE then 1 else 0) = 1 := by decide
    rw [e1, e2] at hcc
    unfold countSnake
    omega
  · rw [getCell_setCell_ne s.grid (hx, hy) s.tail SNAKE hneq]
    exact htail

/-- Witness for C2: a 1×3 snake eating the food ahead of it. -/
theorem claim_C2_witness :
    WellFormed wFood ∧ getCell wFood.grid (0, 2) = FOOD ∧
    ((update_snake wFood SnakeDirection.Right).2 = true ∧
     countSnake (update_snake wFood SnakeDirection.Right).1.grid
       = countSnake wFood.grid + 1 ∧
     getCell (update_snake wFood SnakeDirection.Right).1.grid wFood.tail
       = SNAKE ∧
     (update_snake wFood SnakeDirection.Right).1.tail = wFood.tail ∧
     (update_snake wFood SnakeDirection.Right).1.head_directions.length
       = wFood.head_directions.length + 1) :=
  ⟨by decide, by decide,
    claim_C2_growth wFood SnakeDirection.Right 0 2 (by decide) (by decide)
      (by decide) (by decide) (by decide) (by decide)⟩

/-- C3: for every well-formed state and direction whose next head position is
in bounds and holds `EMPTY`, `update_snake` returns `true`, the snake-cell
count is unchanged, the pre-call tail cell becomes `EMPTY`, and the new tail
is the pre-call tail moved one step in the direction popped from the back of
`head_directions`. -/
theorem claim_C3_nongrowth_tail_advance (s : GameState) (d : SnakeDirection)
    (hx hy : Nat)
    (hwf : WellFormed s)
    (hpos : _calc_position s.head d = ((hx : Int), (hy : Int)))
    (hxr : hx < s.grid.length) (hyr : hy < (s.grid.headD []).length)
    (hempty : getCell s.grid (hx, hy) = EMPTY)
    (htail : getCell s.grid s.tail = SNAKE)
    (hq : s.head_directions ≠ [])
    (tx ty : Nat)
    (htpos : _calc_position s.tail (s.head_directions.getLast hq)
      = ((tx : Int), (ty : Int))) :
    (update_snake s d).2 = true ∧
    countSnake (update_snake s d).1.grid = countSnake s.grid ∧
    getCell (update_snake s d).1.grid s.tail = EMPTY ∧
    (update_snake s d).1.tail = (tx, ty) := by
  obtain ⟨hne, hrect, hrow, hcol, hh, ht, _⟩ := hwf
  have hnf : getCell s.grid (hx, hy) ≠ FOOD := by rw [hempty]; decide
  rw [update_snake_in_nofood_eq s d hx hy hpos hxr hyr hrow hcol hnf]
  dsimp only
  have hneq : s.tail.1 ≠ hx ∨ s.tail.2 ≠ hy := by
    rcases eq_or_ne s.tail (hx, hy) with he | hne2
    · exfalso
      rw [he] at htail
      rw [htail] at hempty
      exact absurd hempty (by decide)
    · exact ne_components hne2
  have hrl : (s.grid.getD hx []).length = (s.grid.headD []).length :=
    rect_row_len s.grid hrect hx hxr
  have htl : (s.grid.getD s.tail.1 []).length = (s.grid.headD []).length :=
    rect_row_len s.grid hrect s.tail.1 ht.1
  have hb1 : s.tail.1 < (setCell s.grid (hx, hy) SNAKE).length := by
    rw [length_setCell]; exact ht.1
  have hb2 : s.tail.2
      < ((setCell s.grid (hx, hy) SNAKE).getD s.tail.1 []).length := by
    rw [row_length_setCell, htl]; exact ht.2
  refine ⟨rfl, ?_, ?_, ?_⟩
  · have hcc1 := countCells_setCell s.grid (hx, hy) SNAKE SNAKE hxr
      (by show hy < (s.grid.getD hx []).length; omega)
    rw [hempty] at hcc1
    have hg1t : getCell (setCell s.grid (hx, hy) SNAKE) s.tail = SNAKE := by
      rw [getCell_setCell_ne s.grid (hx, hy) s.tail SNAKE hneq]
      exact htail
    have hcc2 := countCells_setCell (setCell s.grid (hx, hy) SNAKE) s.tail
      EMPTY SNAKE hb1 hb2
    rw [hg1t] at hcc2
    have e1 : (if EMPTY = SNAKE then 1 else 0) = 0 := by decide
    have e2 : (if SNAKE = SNAKE then 1 else 0) = 1 := by decide
    rw [e1, e2] at hcc1
    rw [e1, e2] at hcc2
    unfold countSnake
    omega
  · exact getCell_setCell_self (setCell s.grid (hx, hy) SNAKE) s.tail EMPTY
      hb1 hb2
  · have hlast : (d :: s.head_directions).getLastD SnakeDirection.Right
        = s.head_directions.getLast hq := by
      rw [List.getLastD_cons]
      exact getLastD_eq_getLast s.head_directions hq d
    rw [hlast, htpos]
    have hr := _calc_position_range s.tail (s.head_directions.getLast hq)
    rw [htpos] at hr
    dsimp only at hr ⊢
    rw [usizeOfI16_coe tx (by omega), usizeOfI16_coe ty (by omega)]

/-- Witness for C3: a 1×3 snake advancing onto an empty cell; the tail moves
from (0,0) to (0,1) in the popped direction `Right`. -/
theorem claim_C3_witness :
    WellFormed wOpen ∧ getCell wOpen.grid (0, 2) = EMPTY ∧
    ((update_snake wOpen SnakeDirection.Right).2 = true ∧
     countSnake (update_snake wOpen SnakeDirection.Right).1.grid
       = countSnake wOpen.grid ∧
     getCell (update_snake wOpen SnakeDirection.Right).1.grid wOpen.tail
       = EMPTY ∧
     (update_snake wOpen SnakeDirection.Right).1.tail = (0, 1)) :=
  ⟨by decide, by decide,
    claim_C3_nongrowth_tail_advance wOpen SnakeDirection.Right 0 2 (by decide)
      (by decide) (by decide) (by decide) (by decide) (by decide) (by decide)
      0 1 (by decide)⟩

/-- Counterexample to C6 as stated: on the well-formed two-cell snake `wEdge`
the next head position for `Left` is (0,0), whose cell holds `SNAKE` (it is
the tail), `update_snake` returns `true`, yet afterwards that cell holds
`EMPTY`, not `SNAKE`: the tail-advance step clears the freshly written head
cell. -/
theorem claim_C6_counterexample :
    WellFormed wEdge ∧
    _calc_position wEdge.head SnakeDirection.Left = ((0 : Int), (0 : Int)) ∧
    getCell wEdge.grid (0, 0) = SNAKE ∧
    (update_snake wEdge SnakeDirection.Left).2 = true ∧
    getCell (update_snake wEdge SnakeDirection.Left).1.grid (0, 0)
      = EMPTY := by
  decide

/-- C6 (amended): for every well-formed state and direction whose next head
position is in bounds, holds `SNAKE`, and differs from the current tail
position, `update_snake` returns `true` (the game does not end) and that cell
still holds `SNAKE` after the call.  (When the next head position equals the
tail, the call still returns `true` but the cell ends up `EMPTY` — see the
counterexample and C9.) -/
theorem claim_C6_self_collision_amended (s : GameState) (d : SnakeDirection)
    (hx hy : Nat)
    (hwf : WellFormed s)
    (hpos : _calc_position s.head d = ((hx : Int), (hy : Int)))
    (hxr : hx < s.grid.length) (hyr : hy < (s.grid.headD []).length)
    (hsnake : getCell s.grid (hx, hy) = SNAKE)
    (hnt : ((hx, hy) : CellPos) ≠ s.tail) :
    (update_snake s d).2 = true ∧
    getCell (update_snake s d).1.grid (hx, hy) = SNAKE := by
  obtain ⟨hne, hrect, hrow, hcol, hh, ht, hq⟩ := hwf
  have hnf : getCell s.grid (hx, hy) ≠ FOOD := by rw [hsnake]; decide
  rw [update_snake_in_nofood_eq s d hx hy hpos hxr hyr hrow hcol hnf]
  dsimp only
  refine ⟨rfl, ?_⟩
  rw [getCell_setCell_ne _ s.tail ((hx, hy) : CellPos) EMPTY (ne_components hnt)]
  exact getCell_setCell_self s.grid (hx, hy) SNAKE hxr
    (by rw [rect_row_len s.grid hrect hx hxr]; exact hyr)

/-- Witness for the amended C6: a fully snake-covered 1×3 row, head moving
right onto a body cell that is not the tail. -/
theorem claim_C6_witness :
    WellFormed wBody ∧ getCell wBody.grid (0, 2) = SNAKE ∧
    ((update_snake wBody SnakeDirection.Right).2 = true ∧
     getCell (update_snake wBody SnakeDirection.Right).1.grid (0, 2)
       = SNAKE) :=
  ⟨by decide, by decide,
    claim_C6_self_collision_amended wBody SnakeDirection.Right 0 2 (by decide)
      (by decide) (by decide) (by decide) (by decide) (by decide)⟩

/-- C9: for every well-formed state whose next head position in the chosen
direction equals the current tail position (a `SNAKE` cell, not food),
`update_snake` returns `true`, but — because the head cell is written before
the tail cell is cleared — the cell at the new head position holds `EMPTY`
afterwards and the snake-cell count decreases by one. -/
theorem claim_C9_head_onto_tail (s : GameState) (d : SnakeDirection)
    (hwf : WellFormed s)
    (hpos : _calc_position s.head d = ((s.tail.1 : Int), (s.tail.2 : Int)))
    (hsnake : getCell s.grid s.tail = SNAKE) :
    (update_snake s d).2 = true ∧
    getCell (update_snake s d).1.grid s.tail = EMPTY ∧
    countSnake (update_snake s d).1.grid + 1 = countSnake s.grid := by
  obtain ⟨hne, hrect, hrow, hcol, hh, ht, hq⟩ := hwf
  have htl : (s.grid.getD s.tail.1 []).length = (s.grid.headD []).length :=
    rect_row_len s.grid hrect s.tail.1 ht.1
  have hsn' : getCell s.grid (s.tail.1, s.tail.2) = SNAKE := hsnake
  have hnf : getCell s.grid (s.tail.1, s.tail.2) ≠ FOOD := by
    rw [hsn']; decide
  rw [update_snake_in_nofood_eq s d s.tail.1 s.tail.2 hpos ht.1 ht.2 hrow hcol
    hnf]
  dsimp only
  have hb1 : s.tail.1 < (setCell s.grid (s.tail.1, s.tail.2) SNAKE).length := by
    rw [length_setCell]; exact ht.1
  have hb2 : s.tail.2
      < ((setCell s.grid (s.tail.1, s.tail.2) SNAKE).getD s.tail.1 []).length := by
    rw [row_length_setCell, htl]; exact ht.2
  have htb : s.tail.2 < (s.grid.getD s.tail.1 []).length := by
    rw [htl]; exact ht.2
  refine ⟨rfl, ?_, ?_⟩
  · exact getCell_setCell_self (setCell s.grid (s.tail.1, s.tail.2) SNAKE)
      s.tail EMPTY hb1 hb2
  · have hcc1 := countCells_setCell s.grid (s.tail.1, s.tail.2) SNAKE SNAKE
      ht.1 htb
    rw [hsn'] at hcc1
    have hg1t : getCell (setCell s.grid (s.tail.1, s.tail.2) SNAKE) s.tail
        = SNAKE :=
      getCell_setCell_self s.grid (s.tail.1, s.tail.2) SNAKE ht.1 htb
    have hcc2 := countCells_setCell (setCell s.grid (s.tail.1, s.tail.2) SNAKE)
      s.tail EMPTY SNAKE hb1 hb2
    rw [hg1t] at hcc2
    have e1 : (if EMPTY = SNAKE then 1 else 0) = 0 := by decide
    have e2 : (if SNAKE = SNAKE then 1 else 0) = 1 := by decide
    rw [e2] at hcc1
    rw [e1, e2] at hcc2
    unfold countSnake
    omega

/-- Witness for C9: the two-cell snake `wEdge` turning back onto its tail:
the call succeeds, the tail cell ends `EMPTY`, and the count drops from 2
to 1. -/
theorem claim_C9_witness :
    WellFormed wEdge ∧ getCell wEdge.grid wEdge.tail = SNAKE ∧
    ((update_snake wEdge SnakeDirection.Left).2 = true ∧
     getCell (update_snake wEdge SnakeDirection.Left).1.grid wEdge.tail
       = EMPTY ∧
     countSnake (update_snake wEdge SnakeDirection.Left).1.grid + 1
       = countSnake wEdge.grid) :=
  ⟨by decide, by decide,
    claim_C9_head_onto_tail wEdge SnakeDirection.Left (by decide) (by decide)
      (by decide)⟩

/-- C5: on every well-formed state, `update_snake` meets all its panic-freedom
side conditions: the grid read by `grid_size` is non-empty, and past the
boundary check the new head index, the tail index and the queue handed to
`pop_back().unwrap()` are all safe. -/
theorem claim_C5_never_panics (s : GameState) (d : SnakeDirection)
    (hwf : WellFormed s) : update_snake_no_panic s d := by
  obtain ⟨hne, hrect, hrow, hcol, hh, ht, hq⟩ := hwf
  refine ⟨hne, fun hin => ⟨?_, ht, by simp⟩⟩
  push_neg at hin
  obtain ⟨h1, h2, h3, h4⟩ := hin
  rw [wrap16_eq_of_bounds _ (by omega) (by exact_mod_cast hrow)] at h3
  rw [wrap16_eq_of_bounds _ (by omega) (by exact_mod_cast hcol)] at h4
  constructor
  · show usizeOfI16 (_calc_position s.head d).1 < s.grid.length
    unfold usizeOfI16
    omega
  · show usizeOfI16 (_calc_position s.head d).2 < (s.grid.headD []).length
    unfold usizeOfI16
    omega

/-- Witness for C5 at the concrete state `wOpen` and direction `Right`. -/
theorem claim_C5_witness :
    WellFormed wOpen ∧ update_snake_no_panic wOpen SnakeDirection.Right :=
  ⟨by decide, claim_C5_never_panics wOpen SnakeDirection.Right (by decide)⟩

lemma add_food_cons (g : Grid) (q : CellPos) (qs : List CellPos) :
    add_food g (q :: qs)
      = add_food (if getCell g q = EMPTY then setCell g q FOOD else g) qs :=
  rfl

lemma add_food_nonempty_preserved (draws : List CellPos) :
    ∀ (g : Grid) (p : CellPos),
    getCell g p ≠ EMPTY → getCell (add_food g draws) p = getCell g p := by
  induction draws with
  | nil => intro g p _; rfl
  | cons q qs ih =>
    intro g p hp
    rw [add_food_cons]
    by_cases hc : getCell g q = EMPTY
    · rw [if_pos hc]
      have hne : p.1 ≠ q.1 ∨ p.2 ≠ q.2 := by
        rcases eq_or_ne p q with he | hne2
        · exfalso
          rw [he] at hp
          exact hp hc
        · exact ne_components hne2
      have hstep : getCell (setCell g q FOOD) p = getCell g p :=
        getCell_setCell_ne g q p FOOD hne
      rw [ih (setCell g q FOOD) p (by rw [hstep]; exact hp), hstep]
    · rw [if_neg hc]
      exact ih g p hp

lemma add_food_not_drawn (draws : List CellPos) : ∀ (g : Grid) (p : CellPos),
    p ∉ draws → getCell (add_food g draws) p = getCell g p := by
  induction draws with
  | nil => intro g p _; rfl
  | cons q qs ih =>
    intro g p hp
    have hpq : p ≠ q := fun he => hp (by rw [he]; exact List.mem_cons_self q qs)
    have hpqs : p ∉ qs := fun hm => hp (List.mem_cons_of_mem q hm)
    rw [add_food_cons]
    by_cases hc : getCell g q = EMPTY
    · rw [if_pos hc, ih (setCell g q FOOD) p hpqs]
      exact getCell_setCell_ne g q p FOOD (ne_components hpq)
    · rw [if_neg hc]
      exact ih g p hpqs

lemma add_food_count (draws : List CellPos) : ∀ g : Grid,
    (∀ p ∈ draws, p.1 < g.length ∧ p.2 < (g.getD p.1 []).length) →
    countCells (add_food g draws) FOOD ≤ countCells g FOOD + draws.length := by
  induction draws with
  | nil => intro g _; simp [add_food]
  | cons q qs ih =>
    intro g hdr
    rw [add_food_cons]
    by_cases hc : getCell g q = EMPTY
    · rw [if_pos hc]
      have hqb := hdr q (List.mem_cons_self q qs)
      have hcc := countCells_setCell g q FOOD FOOD hqb.1 hqb.2
      rw [hc] at hcc
      have e1 : (if EMPTY = FOOD then 1 else 0) = 0 := by decide
      have e2 : (if FOOD = FOOD then 1 else 0) = 1 := by decide
      rw [e1, e2] at hcc
      have hdr' : ∀ p ∈ qs, p.1 < (setCell g q FOOD).length ∧
          p.2 < ((setCell g q FOOD).getD p.1 []).length := by
        intro p hm
        have hb := hdr p (List.mem_cons_of_mem q hm)
        rw [length_setCell, row_length_setCell]
        exact hb
      have hrec := ih (setCell g q FOOD) hdr'
      simp only [List.length_cons]
      omega
    · rw [if_neg hc]
      have hdr' : ∀ p ∈ qs, p.1 < g.length ∧ p.2 < (g.getD p.1 []).length :=
        fun p hm => hdr p (List.mem_cons_of_mem q hm)
      have hrec := ih g hdr'
      simp only [List.length_cons]
      omega

/-- C8: `add_food` performs exactly one conditional write per draw, setting a
drawn cell to `FOOD` only when it holds `EMPTY` and skipping the draw with no
retry otherwise: non-empty cells are never changed, at most `max_amount`
cells become `FOOD`, and cells never drawn are unchanged. -/
theorem claim_C8_food_placement (g : Grid) (draws : List CellPos)
    (max_amount : Nat)
    (hlen : draws.length = max_amount)
    (hdr : ∀ p ∈ draws, p.1 < g.length ∧ p.2 < (g.getD p.1 []).length) :
    (∀ p : CellPos, getCell g p ≠ EMPTY →
      getCell (add_food g draws) p = getCell g p) ∧
    countCells (add_food g draws) FOOD ≤ countCells g FOOD + max_amount ∧
    (∀ q : CellPos, q ∉ draws → getCell (add_food g draws) q = getCell g q) := by
  refine ⟨fun p hp => add_food_nonempty_preserved draws g p hp, ?_,
    fun q hqd => add_food_not_drawn draws g q hqd⟩
  rw [← hlen]
  exact add_food_count draws g hdr

/-- Witness for C8: one draw at (0,0) on the all-empty 2×2 grid. -/
theorem claim_C8_witness :
    wDraws.length = 1 ∧
    (∀ p ∈ wDraws, p.1 < wGrid.length ∧ p.2 < (wGrid.getD p.1 []).length) ∧
    ((∀ p : CellPos, getCell wGrid p ≠ EMPTY →
       getCell (add_food wGrid wDraws) p = getCell wGrid p) ∧
     countCells (add_food wGrid wDraws) FOOD ≤ countCells wGrid FOOD + 1 ∧
     (∀ q : CellPos, q ∉ wDraws →
       getCell (add_food wGrid wDraws) q = getCell wGrid q)) :=
  ⟨rfl, by decide, claim_C8_food_placement wGrid wDraws 1 rfl (by decide)⟩

/-- C10: every successful in-bounds `update_snake` call returns `true` and
changes the length of `head_directions` by exactly +1 when the target cell
held `FOOD` and by 0 otherwise, so the queue stays non-empty; the initial
state's queue holds exactly one direction. -/
theorem claim_C10_queue_length (s : GameState) (d : SnakeDirection)
    (hx hy : Nat)
    (hwf : WellFormed s)
    (hpos : _calc_position s.head d = ((hx : Int), (hy : Int)))
    (hxr : hx < s.grid.length) (hyr : hy < (s.grid.headD []).length) :
    (update_snake s d).2 = true ∧
    (getCell s.grid (hx, hy) = FOOD →
      (update_snake s d).1.head_directions.length
        = s.head_directions.length + 1) ∧
    (getCell s.grid (hx, hy) ≠ FOOD →
      (update_snake s d).1.head_directions.length
        = s.head_directions.length) ∧
    (update_snake s d).1.head_directions ≠ [] ∧
    (∀ nrows ncols : Nat,
      (init_game_state nrows ncols).head_directions.length = 1) := by
  obtain ⟨hne, hrect, hrow, hcol, hh, ht, hq⟩ := hwf
  by_cases hf : getCell s.grid (hx, hy) = FOOD
  · rw [update_snake_in_food_eq s d hx hy hpos hxr hyr hrow hcol hf]
    dsimp only
    exact ⟨rfl, fun _ => by simp, fun hc => absurd hf hc, by simp,
      fun nrows ncols => rfl⟩
  · rw [update_snake_in_nofood_eq s d hx hy hpos hxr hyr hrow hcol hf]
    dsimp only
    have hlen : ((d :: s.head_directions).dropLast).length
        = s.head_directions.length := by
      simp
    have hqpos : 0 < s.head_directions.length := List.length_pos.mpr hq
    refine ⟨rfl, fun hc => absurd hc hf, fun _ => hlen, ?_,
      fun nrows ncols => rfl⟩
    intro hnil
    rw [hnil] at hlen
    simp at hlen
    omega

/-- Witness for C10 at the state `wOpen` (empty cell ahead) and `Right`. -/
theorem claim_C10_witness :
    WellFormed wOpen ∧
    ((update_snake wOpen SnakeDirection.Right).2 = true ∧
     (getCell wOpen.grid (0, 2) = FOOD →
       (update_snake wOpen SnakeDirection.Right).1.head_directions.length
         = wOpen.head_directions.length + 1) ∧
     (getCell wOpen.grid (0, 2) ≠ FOOD →
       (update_snake wOpen SnakeDirection.Right).1.head_directions.length
         = wOpen.head_directions.length) ∧
     (update_snake wOpen SnakeDirection.Right).1.head_directions ≠ [] ∧
     (∀ nrows ncols : Nat,
       (init_game_state nrows ncols).head_directions.length = 1)) :=
  ⟨by decide, claim_C10_queue_length wOpen SnakeDirection.Right 0 2 (by decide)
    (by decide) (by decide) (by decide)⟩

end SnakeGame
